import Mathlib

/-!
Verification of the motivation subsystem (registry and engine) and of the
worker token-budget handling of the loom multi-agent orchestrator, as a
shallow embedding of the Go sources `internal/motivation/registry.go`,
`internal/motivation/engine.go` and the worker file containing
`handleTokenLimits` / `getModelTokenLimit`.

Modelling conventions:
* Go `time.Time` / `time.Duration` values are unbounded integers (nanosecond
  counts); no property below depends on 64-bit overflow.
* The registry's `map[string]*Motivation` is a list of entries; iteration
  order of the Go map is fixed as the list order, and a keyed update becomes
  a map over the list guarded by the id, which agrees with Go map semantics
  on reachable states (whose ids are unique, since `Register` rejects
  duplicates).  The pointer-based secondary indexes store motivation ids
  (pointer identity coincides with id on reachable states).
* The mutex fields guard concurrent access only and have no pure content.
* Fallible Go functions return `Except String`.
-/

set_option maxRecDepth 8192

namespace Loom

/-- Dynamic values stored in the Go `map[string]interface{}` data bags used by
the motivation engine.  The engine itself only ever constructs the boolean
entry `manual = true`; evaluator-produced bags are arbitrary. -/
inductive GoVal where
  | bool (b : Bool)
  | str (s : String)
  | int (n : Int)
deriving DecidableEq

/-- A Go `map[string]interface{}` trigger-data or parameter bag. -/
abbrev TriggerData := List (String × GoVal)

/-- Status tag of a motivation (Go `type MotivationStatus string`).  The Go
declaration lives in a types file that is not part of the sources at hand;
the constants below are modelled from the spec (status ranges over Active,
Cooldown, Disabled) with the Go string zero value `""` standing for an unset
status, which is what `Registry.Register` tests for.  Only distinctness of
the three values is ever used. -/
abbrev MotivationStatus := String

/-- Active status constant. -/
def MotivationStatusActive : MotivationStatus := "active"

/-- Cooldown status constant. -/
def MotivationStatusCooldown : MotivationStatus := "cooldown"

/-- Disabled status constant. -/
def MotivationStatusDisabled : MotivationStatus := "disabled"

/-- Result tag of a trigger (Go `type TriggerResult string`), modelled like
`MotivationStatus`: the spec fixes the range {Success, Skipped, Error}; only
distinctness of the values is used. -/
abbrev TriggerResult := String

/-- Successful trigger result constant. -/
def TriggerResultSuccess : TriggerResult := "success"

/-- Skipped trigger result constant. -/
def TriggerResultSkipped : TriggerResult := "skipped"

/-- Errored trigger result constant. -/
def TriggerResultError : TriggerResult := "error"

/-- A motivation (declarative wake-up rule).  The field set is reconstructed
from the uses in `registry.go` / `engine.go` and the spec's data model; the
Go struct declaration itself is in the missing types file.  Timestamps are
integers with `0` as Go's zero time (`CreatedAt.IsZero`); `mtype` is the Go
field `Type` (a string variant tag). -/
structure Motivation where
  id : String := ""
  name : String := ""
  description : String := ""
  mtype : String := ""
  condition : String := ""
  agentID : String := ""
  agentRole : String := ""
  projectID : String := ""
  parameters : TriggerData := []
  cooldownPeriod : Int := 0
  priority : Int := 0
  status : MotivationStatus := ""
  createBeadOnTrigger : Bool := false
  wakeAgent : Bool := false
  isBuiltIn : Bool := false
  createdAt : Int := 0
  updatedAt : Int := 0
  lastTriggeredAt : Option Int := none
  disabledAt : Option Int := none
  triggerCount : Nat := 0
deriving DecidableEq

/-- An immutable record of one firing (Go `MotivationTrigger`).  The Go
struct also carries a snapshot pointer to the motivation, which the claims
never read; it is omitted here (the `motivationID` identifies it). -/
structure MotivationTrigger where
  id : String := ""
  motivationID : String := ""
  triggeredAt : Int := 0
  triggerData : TriggerData := []
  result : TriggerResult := ""
  beadCreated : String := ""
  agentWoken : String := ""
  error : String := ""
deriving DecidableEq

/-- Engine/registry configuration (Go `MotivationConfig`).  The field set is
reconstructed from the uses in `registry.go` / `engine.go` and the tests.
`maxTriggersPerTick` counts firings and is modelled as `Nat`; the spec
describes it as a configurable count with default 10. -/
structure MotivationConfig where
  evaluationInterval : Int := 0
  defaultCooldown : Int := 0
  maxTriggersPerTick : Nat := 0
  idleThreshold : Int := 0
  enabledByDefault : Bool := false
deriving DecidableEq

/-- The motivation registry (Go `Registry`).  `motivations` is the keyed map
as a list of entries; `byRole` / `byProject` are the secondary indexes with
entries identified by motivation id; `triggers` is the bounded trigger
history. -/
structure Registry where
  motivations : List Motivation := []
  byRole : List (String × List String) := []
  byProject : List (String × List String) := []
  triggers : List MotivationTrigger := []
  config : MotivationConfig := {}
  nextID : Nat := 1
deriving DecidableEq

/-- Registry.NewRegistry with a non-nil config (the nil branch substitutes
`DefaultConfig()`, which the claims never exercise). -/
def newRegistry (config : MotivationConfig) : Registry :=
  { motivations := [], byRole := [], byProject := [], triggers := [],
    config := config, nextID := 1 }

/-- Lookup in the registry's keyed map (Go `r.motivations[id]`). -/
def findMotivation (r : Registry) (id : String) : Option Motivation :=
  r.motivations.find? (fun m => m.id == id)

/-- Go `r.byRole[key] = append(r.byRole[key], m)`: append an entry under a
key of an indexed map, creating the key when absent. -/
def addIndex : List (String × List String) → String → String → List (String × List String)
  | [], key, entry => [(key, [entry])]
  | (k, vs) :: rest, key, entry =>
    if k = key then (k, vs ++ [entry]) :: rest
    else (k, vs) :: addIndex rest key entry

/-- The Set-defaults block of Registry.Register: default status per config,
default cooldown for a zero cooldown, created/updated timestamps.  The Go
code applies the three defaults one after the other; since each test reads a
field the earlier defaults do not touch, the updates are written here as one
record update. -/
def applyRegisterDefaults (config : MotivationConfig) (m1 : Motivation) (now : Int) : Motivation :=
  { m1 with
    status := if m1.status = "" then
        (if config.enabledByDefault then MotivationStatusActive else MotivationStatusDisabled)
      else m1.status,
    cooldownPeriod := if m1.cooldownPeriod = 0 then config.defaultCooldown
      else m1.cooldownPeriod,
    createdAt := if m1.createdAt = 0 then now else m1.createdAt,
    updatedAt := now }

/-- Registry.Register.  The Go nil-motivation check has no counterpart (the
embedding has no nil):  generate an id when absent, reject duplicates, apply
the default status / cooldown / timestamps, store the motivation and index
it by role and by project (global motivations under the empty project
key). -/
def register (r : Registry) (m0 : Motivation) (now : Int) : Except String Registry :=
  let m1 := if m0.id = "" then { m0 with id := "mot-" ++ toString r.nextID } else m0
  let nextID := if m0.id = "" then r.nextID + 1 else r.nextID
  if (findMotivation r m1.id).isSome then
    Except.error ("motivation with ID " ++ m1.id ++ " already exists")
  else
    let m5 := applyRegisterDefaults r.config m1 now
    let byRole := if m5.agentRole ≠ "" then addIndex r.byRole m5.agentRole m5.id else r.byRole
    let byProject := if m5.projectID ≠ "" then addIndex r.byProject m5.projectID m5.id
      else addIndex r.byProject "" m5.id
    Except.ok { r with motivations := r.motivations ++ [m5], byRole := byRole,
                       byProject := byProject, nextID := nextID }

/-- The per-entry update performed by Registry.RecordTrigger on the keyed
map: on the triggered motivation, set `LastTriggeredAt`, bump `TriggerCount`,
stamp `UpdatedAt`, and enter Cooldown when the result is Success. -/
def recordTriggerEntry (tr : MotivationTrigger) (now : Int) (m : Motivation) : Motivation :=
  if m.id = tr.motivationID then
    let m1 := { m with lastTriggeredAt := some tr.triggeredAt,
                       triggerCount := m.triggerCount + 1,
                       updatedAt := now }
    if tr.result = TriggerResultSuccess then { m1 with status := MotivationStatusCooldown }
    else m1
  else m

/-- Registry.RecordTrigger: update the motivation entry and append the
trigger to the history, keeping the last 1000 entries. -/
def recordTrigger (r : Registry) (tr : MotivationTrigger) (now : Int) : Registry :=
  let ms := r.motivations.map (recordTriggerEntry tr now)
  let ts := r.triggers ++ [tr]
  let ts2 := if 1000 < ts.length then ts.drop (ts.length - 1000) else ts
  { r with motivations := ms, triggers := ts2 }

/-- The per-entry update performed by Registry.CheckCooldowns: a motivation
in Cooldown whose last trigger is at least `CooldownPeriod` old returns to
Active. -/
def checkCooldownEntry (now : Int) (m : Motivation) : Motivation :=
  if m.status = MotivationStatusCooldown then
    match m.lastTriggeredAt with
    | some t => if m.cooldownPeriod ≤ now - t then { m with status := MotivationStatusActive }
                else m
    | none => m
  else m

/-- Registry.CheckCooldowns: scan all motivations. -/
def checkCooldowns (r : Registry) (now : Int) : Registry :=
  { r with motivations := r.motivations.map (checkCooldownEntry now) }

/-- Registry.GetActive: all motivations in status Active, in registry
order. -/
def getActive (r : Registry) : List Motivation :=
  r.motivations.filter (fun m => m.status == MotivationStatusActive)

/-- Reachable registry states have pairwise distinct motivation ids (the Go
map keys). -/
def uniqueIds (r : Registry) : Prop :=
  (r.motivations.map (fun m => m.id)).Nodup

instance uniqueIdsDecidable (r : Registry) : Decidable (uniqueIds r) :=
  inferInstanceAs (Decidable ((r.motivations.map (fun m : Motivation => m.id)).Nodup))

/-- One observed call on the engine's action handler, recorded so that the
theorems can speak about which side effects a fire performed. -/
inductive HandlerCall where
  | createBead (motivationID : String) (ok : Bool)
  | wakeOne (agentID : String)
  | wakeRole (role : String)
  | publish (triggerID : String)
deriving DecidableEq

/-- The engine's ActionHandler interface.  The engine is always constructed
with a non-nil handler; `publishMotivationFired` and `wakeAgentsByRole`
failures are logged only, so their results are inspected nowhere. -/
structure ActionHandler where
  createStimulusBead : Motivation → TriggerData → Except String String
  wakeAgent : String → Motivation → Except String Unit
  wakeAgentsByRole : String → Motivation → Except String Unit
  publishMotivationFired : MotivationTrigger → Except String Unit

/-- The observable outcome of one Engine.fire: the recorded trigger and the
trace of handler calls made. -/
structure FireLog where
  trigger : MotivationTrigger
  calls : List HandlerCall
deriving DecidableEq

/-- The trigger-data bag `{manual: true}` used by Engine.ManualTrigger. -/
def manualTriggerData : TriggerData := [("manual", GoVal.bool true)]

/-- The bead-creation block of Engine.fire: when `CreateBeadOnTrigger` is
set, call `CreateStimulusBead`; on failure mark the trigger result Error and
record the error string, on success record the bead id. -/
def fireBeadStep (h : ActionHandler) (m : Motivation) (data : TriggerData)
    (t0 : MotivationTrigger) : MotivationTrigger × List HandlerCall :=
  if m.createBeadOnTrigger then
    match h.createStimulusBead m data with
    | Except.error e =>
      ({ t0 with result := TriggerResultError, error := e },
       [HandlerCall.createBead m.id false])
    | Except.ok beadID =>
      ({ t0 with beadCreated := beadID }, [HandlerCall.createBead m.id true])
  else (t0, [])

/-- The wake block of Engine.fire: when `WakeAgent` is set and the trigger
result is still Success, wake the specific agent (recording it on success of
the call) or all agents of the configured role; wake failures are logged and
do not change the trigger. -/
def fireWakeStep (h : ActionHandler) (m : Motivation)
    (t1 : MotivationTrigger) : MotivationTrigger × List HandlerCall :=
  if m.wakeAgent ∧ t1.result = TriggerResultSuccess then
    if m.agentID ≠ "" then
      match h.wakeAgent m.agentID m with
      | Except.error _ => (t1, [HandlerCall.wakeOne m.agentID])
      | Except.ok _ => ({ t1 with agentWoken := m.agentID }, [HandlerCall.wakeOne m.agentID])
    else if m.agentRole ≠ "" then
      let _ := h.wakeAgentsByRole m.agentRole m
      (t1, [HandlerCall.wakeRole m.agentRole])
    else (t1, [])
  else (t1, [])

/-- Engine.fire: build a fresh Success trigger stamped `now`, run the bead
and wake blocks, publish the fired event (best effort), and record the
trigger in the registry.  The Go function always returns nil. -/
def fire (h : ActionHandler) (r : Registry) (m : Motivation) (data : TriggerData)
    (now : Int) : Registry × FireLog :=
  let t0 : MotivationTrigger :=
    { id := "trig-" ++ toString now, motivationID := m.id, triggeredAt := now,
      triggerData := data, result := TriggerResultSuccess }
  let bs := fireBeadStep h m data t0
  let ws := fireWakeStep h m bs.1
  let _ := h.publishMotivationFired ws.1
  (recordTrigger r ws.1 now,
   { trigger := ws.1, calls := bs.2 ++ ws.2 ++ [HandlerCall.publish ws.1.id] })

/-- Outcome of Engine.evaluate for one motivation: evaluator lookup (which
can fail with "no evaluator for motivation type") plus the
Evaluator.Evaluate call against the external state provider.  Within one
tick this is a function of the motivation. -/
inductive EvalResult where
  | fires (data : TriggerData)
  | noFire
  | fails (msg : String)

/-- The result of Engine.Tick: the updated registry, the Go return values
(fired count, last evaluation error), and the trace of fires performed. -/
structure TickResult where
  registry : Registry
  fired : Nat
  lastErr : Option String
  logs : List FireLog

/-- The loop body of Engine.Tick over the snapshot of active motivations:
stop once `MaxTriggersPerTick` firings have occurred, remember the last
evaluation error, fire and count the motivations whose evaluator says so. -/
def tickLoop (h : ActionHandler) (ev : Motivation → EvalResult) (maxT : Nat) (now : Int) :
    List Motivation → Registry → Nat → Option String → List FireLog → TickResult
  | [], r, n, le, logs => ⟨r, n, le, logs⟩
  | m :: rest, r, n, le, logs =>
    if maxT ≤ n then ⟨r, n, le, logs⟩
    else
      match ev m with
      | EvalResult.fails msg => tickLoop h ev maxT now rest r n (some msg) logs
      | EvalResult.noFire => tickLoop h ev maxT now rest r n le logs
      | EvalResult.fires data =>
        let step := fire h r m data now
        tickLoop h ev maxT now rest step.1 (n + 1) le (logs ++ [step.2])

/-- Engine.Tick: advance cooldowns, snapshot the active set, then run the
evaluation loop (returning immediately when no motivation is active). -/
def Tick (h : ActionHandler) (ev : Motivation → EvalResult) (r : Registry) (now : Int) :
    TickResult :=
  let r1 := checkCooldowns r now
  let ms := getActive r1
  if ms.isEmpty then ⟨r1, 0, none, []⟩
  else tickLoop h ev r1.config.maxTriggersPerTick now ms r1 0 none []

/-- The motivation ids fired during a tick. -/
def tickFiredIDs (res : TickResult) : List String :=
  res.logs.map (fun l => l.trigger.motivationID)

/-- Engine.ManualTrigger: look the motivation up (not-found goes back to the
caller), then fire it with trigger-data `{manual: true}` regardless of its
status.  Engine.fire always returns nil, so the Go branch that would flip
the returned trigger to Error is unreachable and the returned trigger keeps
result Success. -/
def manualTrigger (h : ActionHandler) (r : Registry) (id : String) (now : Int) :
    Registry × Except String (MotivationTrigger × FireLog) :=
  match findMotivation r id with
  | none => (r, Except.error ("motivation not found: " ++ id))
  | some m =>
    let tr : MotivationTrigger :=
      { id := "trig-manual-" ++ toString now, motivationID := m.id, triggeredAt := now,
        triggerData := manualTriggerData, result := TriggerResultSuccess }
    let step := fire h r m tr.triggerData now
    (step.1, Except.ok (tr, step.2))

/-- A chat message sent to a provider (role, content). -/
structure ChatMessage where
  role : String
  content : String
deriving DecidableEq

/-- The Go token estimate of one message: `len(msg.Content) / 4` (integer,
hence flooring, division). -/
def contentTokens (m : ChatMessage) : Nat := m.content.length / 4

/-- The running total `totalTokens` of Worker.handleTokenLimits: the sum of
the flooring 4-characters-per-token estimates. -/
def estimateTokens : List ChatMessage → Nat
  | [] => 0
  | m :: rest => contentTokens m + estimateTokens rest

/-- Worker.getModelTokenLimit: static per-model table, 100000 when the model
is unknown. -/
def getModelTokenLimit (model : String) : Nat :=
  if model = "gpt-4" then 8192
  else if model = "gpt-4-32k" then 32768
  else if model = "gpt-4-turbo" then 128000
  else if model = "gpt-3.5-turbo" then 4096
  else if model = "gpt-3.5-turbo-16k" then 16384
  else if model = "claude-3-opus" then 200000
  else if model = "claude-3-sonnet" then 200000
  else if model = "claude-3-haiku" then 200000
  else 100000

/-- The budget cap of Worker.handleTokenLimits.  Go computes
`int(float64(modelLimit) * 0.8)`; for every value `getModelTokenLimit` can
return (the eight table entries and the 100000 default) that float
expression truncates to exactly `limit * 4 / 5`, which is how it is written
here. -/
def tokenCap (modelLimit : Nat) : Nat := modelLimit * 4 / 5

/-- The content of the synthesised truncation notice
(`fmt.Sprintf("[Note: %d older messages truncated to stay within token
limit]", truncatedCount)`). -/
def noticeContent (n : Nat) : String :=
  "[Note: " ++ toString n ++ " older messages truncated to stay within token limit]"

/-- The backwards walk of Worker.handleTokenLimits that computes
`startIndex`: the first argument of the recursion is the Go loop variable
`i` (running from `len(messages)-1` down), the second is `recentTokens`.
Falling off the loop (`i = 0`) leaves `startIndex` at its initial value
`len(messages)`; hitting a message that no longer fits breaks with
`startIndex = i + 1`. -/
def scanStart (msgs : List ChatMessage) (sysTokens maxTokens : Nat) : Nat → Nat → Nat
  | 0, _ => msgs.length
  | i + 1, recent =>
    let msgTokens := contentTokens (msgs.getD (i + 1) ⟨"", ""⟩)
    if maxTokens < sysTokens + recent + msgTokens then (i + 1) + 1
    else scanStart msgs sysTokens maxTokens i (recent + msgTokens)

/-- Worker.handleTokenLimits: pass the list through unchanged when the
estimate fits the cap, otherwise keep the first (system) message, find the
longest fitting tail, and emit `[system, notice, tail]` when at least one
message was cut (`startIndex > 1`). -/
def handleTokenLimits (model : String) (messages : List ChatMessage) : List ChatMessage :=
  let modelLimit := getModelTokenLimit model
  let maxTokens := tokenCap modelLimit
  let totalTokens := estimateTokens messages
  if totalTokens ≤ maxTokens then messages
  else
    match messages with
    | [] => messages
    | systemMsg :: _ =>
      let systemTokens := contentTokens systemMsg
      let startIndex := scanStart messages systemTokens maxTokens (messages.length - 1) 0
      if 1 < startIndex then
        let truncatedCount := startIndex - 1
        let noticeMsg : ChatMessage := ⟨"system", noticeContent truncatedCount⟩
        systemMsg :: noticeMsg :: messages.drop startIndex
      else messages

/-- The spec's token accounting, following its words: `Σ ⌈len(content)/4⌉`
over the message list.  It is compared against the code's flooring
`estimateTokens`, with which it disagrees. -/
def specCeilTokenSum : List ChatMessage → Nat
  | [] => 0
  | m :: rest => (m.content.length + 3) / 4 + specCeilTokenSum rest

/-! ### Registry lemmas -/

lemma recordTriggerEntry_id (tr : MotivationTrigger) (now : Int) (m : Motivation) :
    (recordTriggerEntry tr now m).id = m.id := by
  unfold recordTriggerEntry
  split
  · split <;> rfl
  · rfl

lemma checkCooldownEntry_id (now : Int) (m : Motivation) :
    (checkCooldownEntry now m).id = m.id := by
  unfold checkCooldownEntry
  split
  · split
    · split <;> rfl
    · rfl
  · rfl

lemma find?_map_of_id (f : Motivation → Motivation) (hf : ∀ m, (f m).id = m.id)
    (ms : List Motivation) (id : String) :
    (ms.map f).find? (fun m => m.id == id) = (ms.find? (fun m => m.id == id)).map f := by
  induction ms with
  | nil => rfl
  | cons a rest ih =>
    by_cases h : a.id = id
    · rw [List.map_cons, List.find?_cons_of_pos _ (by simp [hf, h]),
        List.find?_cons_of_pos _ (by simp [h])]
      rfl
    · rw [List.map_cons, List.find?_cons_of_neg _ (by simp [hf, h]),
        List.find?_cons_of_neg _ (by simp [h]), ih]

lemma ids_map_of_id (f : Motivation → Motivation) (hf : ∀ m, (f m).id = m.id)
    (ms : List Motivation) :
    (ms.map f).map (fun m => m.id) = ms.map (fun m => m.id) := by
  rw [List.map_map]
  exact List.map_congr_left (fun a _ => hf a)

lemma findMotivation_recordTrigger (r : Registry) (tr : MotivationTrigger) (now : Int)
    (id : String) :
    findMotivation (recordTrigger r tr now) id
      = (findMotivation r id).map (recordTriggerEntry tr now) := by
  unfold findMotivation recordTrigger
  exact find?_map_of_id _ (recordTriggerEntry_id tr now) r.motivations id

lemma findMotivation_checkCooldowns (r : Registry) (now : Int) (id : String) :
    findMotivation (checkCooldowns r now) id
      = (findMotivation r id).map (checkCooldownEntry now) := by
  unfold findMotivation checkCooldowns
  exact find?_map_of_id _ (checkCooldownEntry_id now) r.motivations id

lemma findMotivation_mem (r : Registry) (id : String) (m : Motivation)
    (h : findMotivation r id = some m) : m ∈ r.motivations ∧ m.id = id := by
  unfold findMotivation at h
  refine ⟨List.mem_of_find?_eq_some h, ?_⟩
  simpa using List.find?_some h

lemma recordTriggerEntry_success (tr : MotivationTrigger) (now : Int) (m : Motivation)
    (hid : m.id = tr.motivationID) (hres : tr.result = TriggerResultSuccess) :
    recordTriggerEntry tr now m =
      { m with lastTriggeredAt := some tr.triggeredAt, triggerCount := m.triggerCount + 1,
               updatedAt := now, status := MotivationStatusCooldown } := by
  unfold recordTriggerEntry
  rw [if_pos hid, if_pos hres]

lemma recordTriggerEntry_nonSuccess (tr : MotivationTrigger) (now : Int) (m : Motivation)
    (hid : m.id = tr.motivationID) (hres : tr.result ≠ TriggerResultSuccess) :
    recordTriggerEntry tr now m =
      { m with lastTriggeredAt := some tr.triggeredAt, triggerCount := m.triggerCount + 1,
               updatedAt := now } := by
  unfold recordTriggerEntry
  rw [if_pos hid, if_neg hres]

lemma recordTriggerEntry_other (tr : MotivationTrigger) (now : Int) (m : Motivation)
    (hid : m.id ≠ tr.motivationID) : recordTriggerEntry tr now m = m := by
  unfold recordTriggerEntry
  rw [if_neg hid]

lemma findMotivation_recordTrigger_other (r : Registry) (tr : MotivationTrigger) (now : Int)
    (id : String) (hid : tr.motivationID ≠ id) :
    findMotivation (recordTrigger r tr now) id = findMotivation r id := by
  rw [findMotivation_recordTrigger]
  cases hf : findMotivation r id with
  | none => rfl
  | some m2 =>
    have h2 : m2.id = id := (findMotivation_mem r id m2 hf).2
    simp [recordTriggerEntry_other tr now m2 (by rw [h2]; exact fun hc => hid hc.symm)]

lemma checkCooldownEntry_waiting (now : Int) (m : Motivation) (t0 : Int)
    (hst : m.status = MotivationStatusCooldown) (hlast : m.lastTriggeredAt = some t0)
    (hw : now - t0 < m.cooldownPeriod) : checkCooldownEntry now m = m := by
  unfold checkCooldownEntry
  rw [if_pos hst, hlast]
  exact if_neg (by omega)

lemma checkCooldownEntry_expired (now : Int) (m : Motivation) (t0 : Int)
    (hst : m.status = MotivationStatusCooldown) (hlast : m.lastTriggeredAt = some t0)
    (hw : m.cooldownPeriod ≤ now - t0) :
    checkCooldownEntry now m = { m with status := MotivationStatusActive } := by
  unfold checkCooldownEntry
  rw [if_pos hst, hlast]
  exact if_pos hw

lemma getLast?_drop : ∀ (l : List MotivationTrigger) (k : Nat), k < l.length →
    (l.drop k).getLast? = l.getLast?
  | _, 0, _ => rfl
  | a :: t, k + 1, h => by
    rw [List.drop_succ_cons, getLast?_drop t k (by simpa using h)]
    cases t with
    | nil => simp at h
    | cons b t2 => exact List.getLast?_cons_cons.symm

lemma recordTrigger_triggers_def (r : Registry) (tr : MotivationTrigger) (now : Int) :
    (recordTrigger r tr now).triggers
      = (if 1000 < (r.triggers ++ [tr]).length then
          (r.triggers ++ [tr]).drop ((r.triggers ++ [tr]).length - 1000)
        else (r.triggers ++ [tr])) := rfl

lemma recordTrigger_triggers (r : Registry) (tr : MotivationTrigger) (now : Int) :
    (recordTrigger r tr now).triggers
      = (r.triggers ++ [tr]).drop ((r.triggers.length + 1) - 1000) := by
  rw [recordTrigger_triggers_def]
  have hl : (r.triggers ++ [tr]).length = r.triggers.length + 1 := by simp
  rw [hl]
  by_cases h : 1000 < r.triggers.length + 1
  · rw [if_pos h]
  · rw [if_neg h]
    have h0 : r.triggers.length + 1 - 1000 = 0 := by omega
    rw [h0, List.drop_zero]

lemma recordTrigger_getLast (r : Registry) (tr : MotivationTrigger) (now : Int) :
    (recordTrigger r tr now).triggers.getLast? = some tr := by
  rw [recordTrigger_triggers]
  rw [getLast?_drop _ _ (by simp; omega)]
  exact List.getLast?_concat r.triggers

lemma recordTrigger_triggers_length (r : Registry) (tr : MotivationTrigger) (now : Int) :
    (recordTrigger r tr now).triggers.length
      = (r.triggers.length + 1) - ((r.triggers.length + 1) - 1000) := by
  rw [recordTrigger_triggers, List.length_drop]
  simp

lemma find?_append_none (l1 l2 : List Motivation) (p : Motivation → Bool)
    (h : l1.find? p = none) : (l1 ++ l2).find? p = l2.find? p := by
  rw [List.find?_append, h]
  rfl

lemma applyRegisterDefaults_id (config : MotivationConfig) (m1 : Motivation) (now : Int) :
    (applyRegisterDefaults config m1 now).id = m1.id := rfl

lemma applyRegisterDefaults_priority (config : MotivationConfig) (m1 : Motivation) (now : Int) :
    (applyRegisterDefaults config m1 now).priority = m1.priority := rfl

lemma applyRegisterDefaults_cooldown (config : MotivationConfig) (m1 : Motivation) (now : Int) :
    (applyRegisterDefaults config m1 now).cooldownPeriod
      = (if m1.cooldownPeriod = 0 then config.defaultCooldown else m1.cooldownPeriod) := rfl

/-! ### Concrete fixtures used by the witnesses -/

/-- A small configuration used by the concrete witnesses. -/
def cfgW : MotivationConfig :=
  { defaultCooldown := 100, maxTriggersPerTick := 10, enabledByDefault := true }

/-- A registered, active motivation with a cooldown period of 50. -/
def motW : Motivation :=
  { id := "m1", name := "wake", status := MotivationStatusActive, cooldownPeriod := 50 }

/-- A registry holding `motW`. -/
def regW : Registry := { newRegistry cfgW with motivations := [motW] }

/-- A successful trigger of `motW` at time 10. -/
def trigW : MotivationTrigger :=
  { id := "t1", motivationID := "m1", triggeredAt := 10, result := TriggerResultSuccess }

/-- An errored trigger of `motW` at time 10. -/
def trigWE : MotivationTrigger :=
  { id := "t2", motivationID := "m1", triggeredAt := 10, result := TriggerResultError }

/-- A motivation with an out-of-range priority and a negative cooldown. -/
def badMotivation : Motivation :=
  { id := "m-bad", priority := 200, cooldownPeriod := -1, status := MotivationStatusActive }

/-! ### C6: RecordTrigger(success) then CheckCooldowns after the cooldown
restores Active -/

/-- C6: for every registered motivation, `RecordTrigger` with a Success
result followed by `CheckCooldowns` at any time at least `CooldownPeriod`
after the trigger's `TriggeredAt` restores the motivation's status to
Active. -/
theorem recordTrigger_then_checkCooldowns_reactivates
    (r : Registry) (tr : MotivationTrigger) (m : Motivation) (now1 now2 : Int)
    (hfound : findMotivation r tr.motivationID = some m)
    (hres : tr.result = TriggerResultSuccess)
    (hcd : m.cooldownPeriod ≤ now2 - tr.triggeredAt) :
    ∃ m2, findMotivation (checkCooldowns (recordTrigger r tr now1) now2) tr.motivationID
        = some m2 ∧ m2.status = MotivationStatusActive := by
  have hid := (findMotivation_mem r tr.motivationID m hfound).2
  rw [findMotivation_checkCooldowns, findMotivation_recordTrigger, hfound]
  simp only [Option.map_some']
  refine ⟨_, rfl, ?_⟩
  rw [recordTriggerEntry_success tr now1 m hid hres]
  have h2 := checkCooldownEntry_expired now2
    { m with lastTriggeredAt := some tr.triggeredAt, triggerCount := m.triggerCount + 1,
             updatedAt := now1, status := MotivationStatusCooldown }
    tr.triggeredAt rfl rfl (by simpa using hcd)
  rw [h2]

/-- Witness for C6 at a concrete registry: trigger at time 10 with cooldown
50, CheckCooldowns at time 60. -/
theorem recordTrigger_then_checkCooldowns_reactivates_witness :
    ∃ m2, findMotivation (checkCooldowns (recordTrigger regW trigW 11) 60) trigW.motivationID
        = some m2 ∧ m2.status = MotivationStatusActive :=
  recordTrigger_then_checkCooldowns_reactivates regW trigW motW 11 60 (by decide) rfl (by decide)

/-! ### C10: RecordTrigger with a non-Success result -/

/-- C10: for every motivation present in the registry, `RecordTrigger` with
a result other than Success sets `LastTriggeredAt`, increments
`TriggerCount` and stamps `UpdatedAt`, but leaves the status field unchanged
(the updated entry is the old record with exactly those three fields
replaced), and it still appends the trigger to the history. -/
theorem recordTrigger_nonSuccess_effects
    (r : Registry) (tr : MotivationTrigger) (m : Motivation) (now : Int)
    (hfound : findMotivation r tr.motivationID = some m)
    (hres : tr.result ≠ TriggerResultSuccess) :
    findMotivation (recordTrigger r tr now) tr.motivationID
        = some { m with lastTriggeredAt := some tr.triggeredAt,
                        triggerCount := m.triggerCount + 1, updatedAt := now } ∧
    (recordTrigger r tr now).triggers.getLast? = some tr := by
  have hid := (findMotivation_mem r tr.motivationID m hfound).2
  refine ⟨?_, recordTrigger_getLast r tr now⟩
  rw [findMotivation_recordTrigger, hfound]
  simp only [Option.map_some']
  rw [recordTriggerEntry_nonSuccess tr now m hid hres]

/-- Witness for C10 at a concrete registry with an errored trigger. -/
theorem recordTrigger_nonSuccess_effects_witness :
    findMotivation (recordTrigger regW trigWE 11) trigWE.motivationID
        = some { motW with lastTriggeredAt := some trigWE.triggeredAt,
                           triggerCount := motW.triggerCount + 1, updatedAt := 11 } ∧
    (recordTrigger regW trigWE 11).triggers.getLast? = some trigWE :=
  recordTrigger_nonSuccess_effects regW trigWE motW 11 (by decide) (by decide)

/-! ### C9: the trigger history is the bounded ring of the most recent
1000 records -/

/-- A sequence of Registry.RecordTrigger calls (trigger, wall-clock time). -/
def recordMany (r : Registry) (trs : List (MotivationTrigger × Int)) : Registry :=
  trs.foldl (fun acc p => recordTrigger acc p.1 p.2) r

/-- C9: from any state whose history respects the bound (as every reachable
state does, starting from the empty history of `NewRegistry`), any sequence
of `RecordTrigger` calls leaves the history equal to the most recent 1000
entries of the full append sequence, in order, and hence within the
bound. -/
theorem triggerHistory_bounded
    (r : Registry) (trs : List (MotivationTrigger × Int))
    (hlen : r.triggers.length ≤ 1000) :
    (recordMany r trs).triggers
        = (r.triggers ++ trs.map (fun p => p.1)).drop
            ((r.triggers.length + trs.length) - 1000) ∧
    (recordMany r trs).triggers.length ≤ 1000 := by
  induction trs generalizing r with
  | nil =>
    constructor
    · simp only [recordMany, List.foldl_nil, List.map_nil, List.append_nil, List.length_nil,
        Nat.add_zero]
      have h0 : r.triggers.length - 1000 = 0 := by omega
      rw [h0, List.drop_zero]
    · simpa [recordMany] using hlen
  | cons p rest ih =>
    have hstep : recordMany r (p :: rest) = recordMany (recordTrigger r p.1 p.2) rest := rfl
    have htr := recordTrigger_triggers r p.1 p.2
    have hlen1 := recordTrigger_triggers_length r p.1 p.2
    have hle1 : (recordTrigger r p.1 p.2).triggers.length ≤ 1000 := by omega
    obtain ⟨ihEq, ihLe⟩ := ih (recordTrigger r p.1 p.2) hle1
    constructor
    · rw [hstep, ihEq, hlen1, htr]
      rw [← List.drop_append_of_le_length
          (by simp only [List.length_append, List.length_cons, List.length_nil]; omega),
        List.drop_drop]
      have hass : (r.triggers ++ [p.1]) ++ rest.map (fun q => q.1)
          = r.triggers ++ (p :: rest).map (fun q => q.1) := by simp
      rw [hass]
      have harith : r.triggers.length + 1 - 1000
            + (r.triggers.length + 1 - (r.triggers.length + 1 - 1000)
                + rest.length - 1000)
          = r.triggers.length + (p :: rest).length - 1000 := by
        simp only [List.length_cons]
        omega
      rw [harith]
    · rw [hstep]
      exact ihLe

/-- Witness for C9: two records from the empty history. -/
theorem triggerHistory_bounded_witness :
    (recordMany regW [(trigW, 11), (trigWE, 12)]).triggers
        = (regW.triggers ++ ([(trigW, 11), (trigWE, 12)].map (fun p => p.1))).drop
            ((regW.triggers.length + ([(trigW, 11), (trigWE, 12)] :
                List (MotivationTrigger × Int)).length) - 1000) ∧
    (recordMany regW [(trigW, 11), (trigWE, 12)]).triggers.length ≤ 1000 :=
  triggerHistory_bounded regW [(trigW, 11), (trigWE, 12)] (by decide)

/-! ### C8: Register performs no priority / cooldown validation -/

/-- Counterexample to C8: `Register` accepts a motivation whose priority is
200 (out of the 0–100 range) and whose cooldown period is negative, and the
registry state changes (the motivation map now holds the entry, with the
invalid priority and cooldown stored as given). -/
theorem register_no_validation_cex :
    100 < badMotivation.priority ∧ badMotivation.cooldownPeriod < 0 ∧
    (register (newRegistry cfgW) badMotivation 5).toOption.map
        (fun r2 => r2.motivations.map (fun m => (m.id, m.priority, m.cooldownPeriod)))
      = some [("m-bad", 200, -1)] := by
  decide

/-- C8 amended: `Register` rejects only nil motivations and duplicate ids;
a motivation with an out-of-range priority or a non-positive cooldown is
accepted and stored, its priority kept as given and its cooldown kept as
given unless it is exactly zero, in which case the config default is
substituted. -/
theorem register_accepts_invalid
    (r : Registry) (m : Motivation) (now : Int)
    (hid : m.id ≠ "")
    (hfresh : findMotivation r m.id = none)
    (hbad : 100 < m.priority ∨ m.priority < 0 ∨ m.cooldownPeriod ≤ 0) :
    ∃ r2, register r m now = Except.ok r2 ∧
      ∃ m2, findMotivation r2 m.id = some m2 ∧
        m2.priority = m.priority ∧
        m2.cooldownPeriod = (if m.cooldownPeriod = 0 then r.config.defaultCooldown
                             else m.cooldownPeriod) ∧
        r2.motivations.length = r.motivations.length + 1 := by
  unfold register
  rw [if_neg hid, if_neg hid]
  dsimp only
  rw [hfresh]
  simp only [Option.isSome_none, Bool.false_eq_true, if_false]
  refine ⟨_, rfl, applyRegisterDefaults r.config m now, ?_, applyRegisterDefaults_priority _ _ _,
    applyRegisterDefaults_cooldown _ _ _, by simp⟩
  unfold findMotivation
  show (r.motivations ++ [applyRegisterDefaults r.config m now]).find?
      (fun mm => mm.id == m.id) = _
  rw [find?_append_none _ _ _ hfresh]
  rw [List.find?_cons_of_pos _ (by simp [applyRegisterDefaults_id])]

/-- Witness for the amended C8 at the concrete invalid motivation. -/
theorem register_accepts_invalid_witness :
    ∃ r2, register (newRegistry cfgW) badMotivation 5 = Except.ok r2 ∧
      ∃ m2, findMotivation r2 badMotivation.id = some m2 ∧
        m2.priority = badMotivation.priority ∧
        m2.cooldownPeriod = (if badMotivation.cooldownPeriod = 0 then
              (newRegistry cfgW).config.defaultCooldown
            else badMotivation.cooldownPeriod) ∧
        r2.motivations.length = (newRegistry cfgW).motivations.length + 1 :=
  register_accepts_invalid (newRegistry cfgW) badMotivation 5 (by decide) (by decide)
    (Or.inl (by decide))

/-! ### Worker token-budget lemmas -/

@[simp] lemma estimateTokens_nil : estimateTokens [] = 0 := rfl

@[simp] lemma estimateTokens_cons (m : ChatMessage) (l : List ChatMessage) :
    estimateTokens (m :: l) = contentTokens m + estimateTokens l := rfl

/-- A string of `n` equal characters, used for the concrete token-budget
inputs (only its length matters). -/
def bigA (n : Nat) : String := String.mk (List.replicate n 'a')

lemma bigA_length (n : Nat) : (bigA n).length = n := by
  simp [bigA, String.length]

lemma drop_cons_of_pos (m0 : ChatMessage) (rest : List ChatMessage) (k : Nat) (h : 1 ≤ k) :
    (m0 :: rest).drop k = rest.drop (k - 1) := by
  obtain ⟨k2, rfl⟩ : ∃ k2, k = k2 + 1 := ⟨k - 1, by omega⟩
  rw [List.drop_succ_cons, Nat.add_sub_cancel]

/-- The backwards walk either falls off the loop (returning the list length)
or breaks at some index, returning a start index between 2 and `i + 1`. -/
lemma scanStart_range (msgs : List ChatMessage) (sysT maxT : Nat) :
    ∀ i recent, scanStart msgs sysT maxT i recent = msgs.length
      ∨ (2 ≤ scanStart msgs sysT maxT i recent ∧ scanStart msgs sysT maxT i recent ≤ i + 1) := by
  intro i
  induction i with
  | zero => intro recent; exact Or.inl rfl
  | succ i ih =>
    intro recent
    unfold scanStart
    dsimp only
    split
    · exact Or.inr ⟨by omega, by omega⟩
    · rcases ih (recent + contentTokens (msgs.getD (i + 1) ⟨"", ""⟩)) with h | h
      · exact Or.inl h
      · exact Or.inr ⟨h.1, by omega⟩

/-- Loop invariant of the backwards walk: when the accumulated recent-token
count matches the dropped suffix and the system message plus that suffix fit
the cap, the suffix starting at the returned index also fits; moreover
either the walk broke (start index at least 2) or it fell off the loop, in
which case the whole tail from index 1 fits together with the system
message. -/
lemma scanStart_fits (msgs : List ChatMessage) (sysT maxT : Nat) :
    ∀ i recent, recent = estimateTokens (msgs.drop (i + 1)) →
      sysT + recent ≤ maxT → i < msgs.length →
      sysT + estimateTokens (msgs.drop (scanStart msgs sysT maxT i recent)) ≤ maxT ∧
      (scanStart msgs sysT maxT i recent = msgs.length
          ∧ sysT + estimateTokens (msgs.drop 1) ≤ maxT
        ∨ 2 ≤ scanStart msgs sysT maxT i recent) := by
  intro i
  induction i with
  | zero =>
    intro recent hrec hfit _
    have hone : sysT + estimateTokens (msgs.drop 1) ≤ maxT := by
      rw [hrec] at hfit
      simpa using hfit
    constructor
    · show sysT + estimateTokens (msgs.drop msgs.length) ≤ maxT
      rw [List.drop_length]
      simp only [estimateTokens_nil]
      omega
    · exact Or.inl ⟨rfl, hone⟩
  | succ i ih =>
    intro recent hrec hfit hlt
    have hgetD : msgs.getD (i + 1) ⟨"", ""⟩ = msgs[i + 1] := List.getD_eq_getElem msgs _ hlt
    have hdropEq : msgs.drop (i + 1) = msgs[i + 1] :: msgs.drop (i + 1 + 1) :=
      List.drop_eq_getElem_cons hlt
    unfold scanStart
    dsimp only
    split
    · constructor
      · rw [← hrec]
        exact hfit
      · right
        omega
    · rename_i hfits
      have hrec2 : recent + contentTokens (msgs.getD (i + 1) ⟨"", ""⟩)
          = estimateTokens (msgs.drop (i + 1)) := by
        rw [hgetD, hdropEq]
        simp only [estimateTokens_cons]
        rw [hrec]
        omega
      exact ih (recent + contentTokens (msgs.getD (i + 1) ⟨"", ""⟩)) hrec2
        (by omega) (by omega)

/-- The pass-through branch of Worker.handleTokenLimits. -/
lemma handleTokenLimits_fits (model : String) (msgs : List ChatMessage)
    (h : estimateTokens msgs ≤ tokenCap (getModelTokenLimit model)) :
    handleTokenLimits model msgs = msgs := by
  unfold handleTokenLimits
  dsimp only
  rw [if_pos h]

/-- The `startIndex` computed by Worker.handleTokenLimits for a non-empty
message list. -/
def startIndexOf (model : String) (m0 : ChatMessage) (rest : List ChatMessage) : Nat :=
  scanStart (m0 :: rest) (contentTokens m0) (tokenCap (getModelTokenLimit model))
    ((m0 :: rest).length - 1) 0

/-- The truncation branch of Worker.handleTokenLimits on a non-empty list,
written in terms of the start index the backwards walk returns. -/
lemma handleTokenLimits_overflow (model : String) (m0 : ChatMessage) (rest : List ChatMessage)
    (hover : tokenCap (getModelTokenLimit model) < estimateTokens (m0 :: rest)) :
    handleTokenLimits model (m0 :: rest)
      = (if 1 < startIndexOf model m0 rest then
          m0 :: ChatMessage.mk "system" (noticeContent (startIndexOf model m0 rest - 1))
            :: (m0 :: rest).drop (startIndexOf model m0 rest)
        else (m0 :: rest)) := by
  unfold handleTokenLimits startIndexOf
  dsimp only
  rw [if_neg (by omega)]

lemma startIndexOf_range (model : String) (m0 : ChatMessage) (rest : List ChatMessage) :
    startIndexOf model m0 rest = (m0 :: rest).length
      ∨ (2 ≤ startIndexOf model m0 rest ∧ startIndexOf model m0 rest ≤ (m0 :: rest).length) := by
  have hr := scanStart_range (m0 :: rest) (contentTokens m0)
    (tokenCap (getModelTokenLimit model)) ((m0 :: rest).length - 1) 0
  have hs : startIndexOf model m0 rest = scanStart (m0 :: rest) (contentTokens m0)
      (tokenCap (getModelTokenLimit model)) ((m0 :: rest).length - 1) 0 := rfl
  have hl : (m0 :: rest).length - 1 + 1 = (m0 :: rest).length := by
    simp only [List.length_cons]
    omega
  rw [← hs] at hr
  rcases hr with h | h
  · exact Or.inl h
  · exact Or.inr ⟨h.1, by omega⟩

/-! ### C4: structure of the truncated output -/

/-- C4: for every non-empty message list whose (flooring) estimated token
sum exceeds the cap, the output is the original first message, followed by
the synthesised system notice naming the number of dropped messages, and the
untruncated most recent tail; the first message is never dropped, and the
notice (present exactly when the number `k - 1` of dropped messages is at
least one, i.e. `2 ≤ k`) carries exactly that count. -/
theorem handleTokenLimits_structure
    (model : String) (m0 : ChatMessage) (rest : List ChatMessage)
    (hover : tokenCap (getModelTokenLimit model) < estimateTokens (m0 :: rest)) :
    ∃ k, 1 ≤ k ∧ k ≤ (m0 :: rest).length ∧
      handleTokenLimits model (m0 :: rest) =
        m0 :: ((if 2 ≤ k then [ChatMessage.mk "system" (noticeContent (k - 1))] else [])
          ++ rest.drop (k - 1)) := by
  rw [handleTokenLimits_overflow model m0 rest hover]
  rcases startIndexOf_range model m0 rest with hr | hr
  · rw [hr]
    cases rest with
    | nil =>
      refine ⟨1, le_refl 1, by simp, ?_⟩
      rw [if_neg (by simp)]
      simp
    | cons m1 rest2 =>
      refine ⟨(m0 :: m1 :: rest2).length, by simp, le_refl _, ?_⟩
      rw [if_pos (by simp), if_pos (by simp), drop_cons_of_pos _ _ _ (by simp)]
      simp
  · obtain ⟨h2, hle⟩ := hr
    refine ⟨startIndexOf model m0 rest, by omega, hle, ?_⟩
    rw [if_pos (by omega), if_pos h2, drop_cons_of_pos _ _ _ (by omega)]
    simp

/-- A long system message of 4000 characters (1000 tokens). -/
def c4m0 : ChatMessage := ⟨"system", bigA 4000⟩

/-- Three user messages of 8000 characters (2000 tokens) each. -/
def c4rest : List ChatMessage := [⟨"user", bigA 8000⟩, ⟨"user", bigA 8000⟩, ⟨"user", bigA 8000⟩]

/-- Witness for C4: a 7000-token history against the 3276-token cap of
gpt-3.5-turbo. -/
theorem handleTokenLimits_structure_witness :
    ∃ k, 1 ≤ k ∧ k ≤ (c4m0 :: c4rest).length ∧
      handleTokenLimits "gpt-3.5-turbo" (c4m0 :: c4rest) =
        c4m0 :: ((if 2 ≤ k then [ChatMessage.mk "system" (noticeContent (k - 1))] else [])
          ++ c4rest.drop (k - 1)) :=
  handleTokenLimits_structure "gpt-3.5-turbo" c4m0 c4rest (by
    have hlim : getModelTokenLimit "gpt-3.5-turbo" = 4096 := rfl
    have hcap : tokenCap 4096 = 3276 := rfl
    simp only [c4m0, c4rest, estimateTokens_cons, estimateTokens_nil, contentTokens,
      bigA_length, hlim, hcap]
    norm_num)

/-! ### C3: the token budget, with the code's flooring estimate -/

/-- C3 amended: the code enforces the budget with the flooring estimate
`Σ ⌊len/4⌋` and cap `⌊0.8 × limit⌋`, and only outside the synthesised
notice: a list whose flooring estimate fits the cap passes through
unchanged; a list that exceeds it, has at least two messages, and whose
leading system message alone fits the cap is truncated to
`[system, notice, tail]` with the flooring estimate of system plus tail
(the notice excluded) within the cap. -/
theorem handleTokenLimits_budget (model : String) (msgs : List ChatMessage) :
    (estimateTokens msgs ≤ tokenCap (getModelTokenLimit model) →
        handleTokenLimits model msgs = msgs) ∧
    (∀ m0 rest, msgs = m0 :: rest →
        tokenCap (getModelTokenLimit model) < estimateTokens msgs →
        contentTokens m0 ≤ tokenCap (getModelTokenLimit model) →
        rest ≠ [] →
        ∃ k, 2 ≤ k ∧ k ≤ msgs.length ∧
          handleTokenLimits model msgs
              = m0 :: ChatMessage.mk "system" (noticeContent (k - 1)) :: rest.drop (k - 1) ∧
          contentTokens m0 + estimateTokens (rest.drop (k - 1))
              ≤ tokenCap (getModelTokenLimit model)) := by
  constructor
  · exact handleTokenLimits_fits model msgs
  · rintro m0 rest rfl hover hsys hne
    have hlen1 : (m0 :: rest).length - 1 + 1 = (m0 :: rest).length := by
      simp only [List.length_cons]
      omega
    have h0 : (0 : Nat) = estimateTokens ((m0 :: rest).drop ((m0 :: rest).length - 1 + 1)) := by
      rw [hlen1, List.drop_length]
      rfl
    obtain ⟨hfitk, hdis⟩ := scanStart_fits (m0 :: rest) (contentTokens m0)
      (tokenCap (getModelTokenLimit model)) ((m0 :: rest).length - 1) 0 h0 (by omega)
      (by simp only [List.length_cons]; omega)
    have hfitk2 : contentTokens m0
        + estimateTokens ((m0 :: rest).drop (startIndexOf model m0 rest))
        ≤ tokenCap (getModelTokenLimit model) := hfitk
    have hdis2 : startIndexOf model m0 rest = (m0 :: rest).length
          ∧ contentTokens m0 + estimateTokens ((m0 :: rest).drop 1)
              ≤ tokenCap (getModelTokenLimit model)
        ∨ 2 ≤ startIndexOf model m0 rest := hdis
    have h2 : 2 ≤ startIndexOf model m0 rest := by
      rcases hdis2 with ⟨_, hall⟩ | h2
      · exfalso
        have hdp1 : (m0 :: rest).drop 1 = rest := by simp
        rw [hdp1] at hall
        simp only [estimateTokens_cons] at hover
        omega
      · exact h2
    have hkle : startIndexOf model m0 rest ≤ (m0 :: rest).length := by
      rcases startIndexOf_range model m0 rest with hr | hr
      · exact le_of_eq hr
      · exact hr.2
    refine ⟨startIndexOf model m0 rest, h2, hkle, ?_, ?_⟩
    · rw [handleTokenLimits_overflow model m0 rest hover, if_pos (by omega),
        drop_cons_of_pos _ _ _ (by omega)]
    · rw [drop_cons_of_pos _ _ _ (by omega : 1 ≤ startIndexOf model m0 rest)] at hfitk2
      exact hfitk2

/-- The unknown model name used by the token-budget counterexamples: its
limit is the 100000 default and the cap is 80000. -/
def cexModel : String := "model-x"

/-- A system message of 320001 characters: 80000 flooring tokens (exactly
the cap), 80001 ceiling tokens. -/
def c1m0 : ChatMessage := ⟨"system", bigA 320001⟩

/-- A system message of 319960 characters (79990 tokens). -/
def c2m0 : ChatMessage := ⟨"system", bigA 319960⟩

/-- A user message of 400 characters (100 tokens). -/
def c2m1 : ChatMessage := ⟨"user", bigA 400⟩

/-- A user message of 40 characters (10 tokens). -/
def c2m2 : ChatMessage := ⟨"user", bigA 40⟩

/-- A system message of 320008 characters (80002 tokens, over the cap). -/
def c3m0 : ChatMessage := ⟨"system", bigA 320008⟩

/-- A user message of 4 characters (1 token). -/
def c4u : ChatMessage := ⟨"user", bigA 4⟩

@[simp] lemma specCeilTokenSum_nil : specCeilTokenSum [] = 0 := rfl

@[simp] lemma specCeilTokenSum_cons (m : ChatMessage) (l : List ChatMessage) :
    specCeilTokenSum (m :: l) = (m.content.length + 3) / 4 + specCeilTokenSum l := rfl

lemma contentTokens_eq (m : ChatMessage) : contentTokens m = m.content.length / 4 := rfl

lemma cap_cexModel : tokenCap (getModelTokenLimit cexModel) = 80000 := rfl

lemma c1m0_len : c1m0.content.length = 320001 := bigA_length 320001

lemma c2m0_len : c2m0.content.length = 319960 := bigA_length 319960

lemma c2m1_len : c2m1.content.length = 400 := bigA_length 400

lemma c2m2_len : c2m2.content.length = 40 := bigA_length 40

lemma c3m0_len : c3m0.content.length = 320008 := bigA_length 320008

lemma c4u_len : c4u.content.length = 4 := bigA_length 4

lemma c2m0_tokens : contentTokens c2m0 = 79990 := by
  rw [contentTokens_eq]
  have h := c2m0_len
  omega

lemma c3m0_tokens : contentTokens c3m0 = 80002 := by
  rw [contentTokens_eq]
  have h := c3m0_len
  omega

lemma cex1_eval : handleTokenLimits cexModel [c1m0] = [c1m0] := by
  apply handleTokenLimits_fits
  have h : estimateTokens [c1m0] = 80000 := by
    rw [estimateTokens_cons, estimateTokens_nil, contentTokens_eq, c1m0_len]
  rw [h, cap_cexModel]

lemma cex2_over : tokenCap (getModelTokenLimit cexModel)
    < estimateTokens (c2m0 :: [c2m1, c2m2]) := by
  have h : estimateTokens (c2m0 :: [c2m1, c2m2]) = 80100 := by
    rw [estimateTokens_cons, estimateTokens_cons, estimateTokens_cons, estimateTokens_nil,
      contentTokens_eq, contentTokens_eq, contentTokens_eq, c2m0_len, c2m1_len, c2m2_len]
  rw [h, cap_cexModel]
  omega

lemma c2_scan : startIndexOf cexModel c2m0 [c2m1, c2m2] = 2 := by
  unfold startIndexOf
  rw [c2m0_tokens, cap_cexModel]
  rfl

lemma cex2_eval : handleTokenLimits cexModel (c2m0 :: [c2m1, c2m2])
    = [c2m0, ⟨"system", noticeContent 1⟩, c2m2] := by
  rw [handleTokenLimits_overflow cexModel c2m0 [c2m1, c2m2] cex2_over, c2_scan]
  norm_num

lemma notice1_len : (noticeContent 1).length = 61 := rfl

lemma cex3_over : tokenCap (getModelTokenLimit cexModel) < estimateTokens [c3m0] := by
  have h : estimateTokens [c3m0] = 80002 := by
    rw [estimateTokens_cons, estimateTokens_nil, contentTokens_eq, c3m0_len]
  rw [h, cap_cexModel]
  omega

lemma cex3_eval : handleTokenLimits cexModel [c3m0] = [c3m0] := by
  rw [handleTokenLimits_overflow cexModel c3m0 [] cex3_over]
  have h3s : startIndexOf cexModel c3m0 [] = 1 := rfl
  rw [h3s]
  norm_num

lemma cex4_over : tokenCap (getModelTokenLimit cexModel)
    < estimateTokens (c3m0 :: [c4u]) := by
  have h : estimateTokens (c3m0 :: [c4u]) = 80003 := by
    rw [estimateTokens_cons, estimateTokens_cons, estimateTokens_nil,
      contentTokens_eq, contentTokens_eq, c3m0_len, c4u_len]
  rw [h, cap_cexModel]
  omega

lemma c4_scan : startIndexOf cexModel c3m0 [c4u] = 2 := by
  unfold startIndexOf
  rw [c3m0_tokens, cap_cexModel]
  rfl

lemma cex4_eval : handleTokenLimits cexModel (c3m0 :: [c4u])
    = [c3m0, ⟨"system", noticeContent 1⟩] := by
  rw [handleTokenLimits_overflow cexModel c3m0 [c4u] cex4_over, c4_scan]
  norm_num

/-- Counterexample to C3 as stated: the spec's ceiling budget
`Σ ⌈len/4⌉ ≤ 0.8 × limit` (written multiplied out, `5 Σ ≤ 4 × limit`) fails
on concrete outputs of the code.  Four inputs under the default
100000-token model: a single system message of 320001 characters passes
through unchanged with ceiling sum 80001 > 80000; a three-message history
is truncated but the synthesised notice pushes the output over the cap; a
single over-cap system message passes through unchanged; and a two-message
list whose system message alone exceeds the cap keeps that message. -/
theorem tokenBudget_ceil_cex :
    (handleTokenLimits cexModel [c1m0] = [c1m0] ∧
      ¬ (5 * specCeilTokenSum (handleTokenLimits cexModel [c1m0])
          ≤ 4 * getModelTokenLimit cexModel)) ∧
    ¬ (5 * specCeilTokenSum (handleTokenLimits cexModel (c2m0 :: [c2m1, c2m2]))
        ≤ 4 * getModelTokenLimit cexModel) ∧
    ¬ (5 * specCeilTokenSum (handleTokenLimits cexModel [c3m0])
        ≤ 4 * getModelTokenLimit cexModel) ∧
    ¬ (5 * specCeilTokenSum (handleTokenLimits cexModel [c3m0, c4u])
        ≤ 4 * getModelTokenLimit cexModel) := by
  have hlim : getModelTokenLimit cexModel = 100000 := rfl
  refine ⟨⟨cex1_eval, ?_⟩, ?_, ?_, ?_⟩
  · rw [cex1_eval, hlim]
    have h : specCeilTokenSum [c1m0] = 80001 := by
      rw [specCeilTokenSum_cons, specCeilTokenSum_nil, c1m0_len]
    rw [h]
    omega
  · rw [cex2_eval, hlim]
    have h : specCeilTokenSum [c2m0, ⟨"system", noticeContent 1⟩, c2m2] = 80016 := by
      rw [specCeilTokenSum_cons, specCeilTokenSum_cons, specCeilTokenSum_cons,
        specCeilTokenSum_nil, c2m0_len, c2m2_len]
      rw [show (ChatMessage.mk "system" (noticeContent 1)).content.length = 61 from notice1_len]
    rw [h]
    omega
  · rw [cex3_eval, hlim]
    have h : specCeilTokenSum [c3m0] = 80002 := by
      rw [specCeilTokenSum_cons, specCeilTokenSum_nil, c3m0_len]
    rw [h]
    omega
  · rw [cex4_eval, hlim]
    have h : specCeilTokenSum [c3m0, ⟨"system", noticeContent 1⟩] = 80018 := by
      rw [specCeilTokenSum_cons, specCeilTokenSum_cons, specCeilTokenSum_nil, c3m0_len]
      rw [show (ChatMessage.mk "system" (noticeContent 1)).content.length = 61 from notice1_len]
    rw [h]
    omega

/-- Witness for the amended C3 at the concrete three-message history: the
truncated output and its notice-free budget. -/
theorem handleTokenLimits_budget_witness :
    ∃ k, 2 ≤ k ∧ k ≤ (c2m0 :: [c2m1, c2m2]).length ∧
      handleTokenLimits cexModel (c2m0 :: [c2m1, c2m2])
          = c2m0 :: ChatMessage.mk "system" (noticeContent (k - 1)) :: [c2m1, c2m2].drop (k - 1) ∧
      contentTokens c2m0 + estimateTokens ([c2m1, c2m2].drop (k - 1))
          ≤ tokenCap (getModelTokenLimit cexModel) :=
  (handleTokenLimits_budget cexModel (c2m0 :: [c2m1, c2m2])).2 c2m0 [c2m1, c2m2] rfl
    cex2_over
    (by rw [c2m0_tokens, cap_cexModel]; omega)
    (by simp)


/-! ### Engine lemmas -/

lemma fire_fst (h : ActionHandler) (r : Registry) (m : Motivation) (data : TriggerData)
    (now : Int) :
    (fire h r m data now).1 = recordTrigger r ((fire h r m data now).2).trigger now := rfl

lemma fireBeadStep_motivationID (h : ActionHandler) (m : Motivation) (data : TriggerData)
    (t0 : MotivationTrigger) :
    ((fireBeadStep h m data t0).1).motivationID = t0.motivationID := by
  unfold fireBeadStep
  split
  · split <;> rfl
  · rfl

lemma fireWakeStep_preserves (h : ActionHandler) (m : Motivation) (t1 : MotivationTrigger) :
    ((fireWakeStep h m t1).1).motivationID = t1.motivationID
    ∧ ((fireWakeStep h m t1).1).result = t1.result
    ∧ ((fireWakeStep h m t1).1).beadCreated = t1.beadCreated
    ∧ ((fireWakeStep h m t1).1).error = t1.error := by
  unfold fireWakeStep
  dsimp only
  split
  · split
    · split <;> exact ⟨rfl, rfl, rfl, rfl⟩
    · split
      · exact ⟨rfl, rfl, rfl, rfl⟩
      · exact ⟨rfl, rfl, rfl, rfl⟩
  · exact ⟨rfl, rfl, rfl, rfl⟩

lemma fireWakeStep_skip (h : ActionHandler) (m : Motivation) (t1 : MotivationTrigger)
    (hres : t1.result ≠ TriggerResultSuccess) : fireWakeStep h m t1 = (t1, []) := by
  unfold fireWakeStep
  rw [if_neg (fun hc => hres hc.2)]

lemma fire_trigger_motivationID (h : ActionHandler) (r : Registry) (m : Motivation)
    (data : TriggerData) (now : Int) :
    ((fire h r m data now).2).trigger.motivationID = m.id := by
  unfold fire
  dsimp only
  rw [(fireWakeStep_preserves h m _).1, fireBeadStep_motivationID]

lemma motivations_ids_recordTrigger (r : Registry) (tr : MotivationTrigger) (now : Int) :
    (recordTrigger r tr now).motivations.map (fun m => m.id)
      = r.motivations.map (fun m => m.id) := by
  show (r.motivations.map (recordTriggerEntry tr now)).map (fun m => m.id) = _
  exact ids_map_of_id _ (recordTriggerEntry_id tr now) r.motivations

lemma motivations_ids_checkCooldowns (r : Registry) (now : Int) :
    (checkCooldowns r now).motivations.map (fun m => m.id)
      = r.motivations.map (fun m => m.id) := by
  show (r.motivations.map (checkCooldownEntry now)).map (fun m => m.id) = _
  exact ids_map_of_id _ (checkCooldownEntry_id now) r.motivations

lemma mem_getActive (r : Registry) (m : Motivation) :
    m ∈ getActive r ↔ m ∈ r.motivations ∧ m.status = MotivationStatusActive := by
  unfold getActive
  rw [List.mem_filter]
  simp

/-- The induction workhorse for Engine.Tick: over any snapshot, starting
below the cap, the loop (a) never exceeds the cap, (b) produces exactly one
log per counted fire, (c) only fires motivations of the snapshot, (d) leaves
the registry entry of any id it did not fire untouched, and (e) preserves
the ids of the motivation map. -/
lemma tickLoop_spec (h : ActionHandler) (ev : Motivation → EvalResult) (maxT : Nat) (now : Int) :
    ∀ (ms : List Motivation) (r : Registry) (n : Nat) (le : Option String) (logs : List FireLog),
      n ≤ maxT →
      (tickLoop h ev maxT now ms r n le logs).fired ≤ maxT
      ∧ (tickLoop h ev maxT now ms r n le logs).logs.length + n
          = logs.length + (tickLoop h ev maxT now ms r n le logs).fired
      ∧ (∃ extra, (tickLoop h ev maxT now ms r n le logs).logs = logs ++ extra
          ∧ ∀ l ∈ extra, l.trigger.motivationID ∈ ms.map (fun m => m.id))
      ∧ (∀ id : String,
          (∀ l ∈ (tickLoop h ev maxT now ms r n le logs).logs, l.trigger.motivationID ≠ id) →
          findMotivation (tickLoop h ev maxT now ms r n le logs).registry id
            = findMotivation r id)
      ∧ (tickLoop h ev maxT now ms r n le logs).registry.motivations.map (fun m => m.id)
          = r.motivations.map (fun m => m.id) := by
  intro ms
  induction ms with
  | nil =>
    intro r n le logs hn
    have hred : tickLoop h ev maxT now [] r n le logs = ⟨r, n, le, logs⟩ := rfl
    rw [hred]
    exact ⟨hn, rfl, ⟨[], (List.append_nil logs).symm, by simp⟩, fun id _ => rfl, rfl⟩
  | cons m rest ih =>
    intro r n le logs hn
    by_cases hcap : maxT ≤ n
    · have hred : tickLoop h ev maxT now (m :: rest) r n le logs = ⟨r, n, le, logs⟩ := by
        simp only [tickLoop]
        rw [if_pos hcap]
      rw [hred]
      exact ⟨hn, rfl, ⟨[], (List.append_nil logs).symm, by simp⟩, fun id _ => rfl, rfl⟩
    · cases hev : ev m with
      | fails msg =>
        have hred : tickLoop h ev maxT now (m :: rest) r n le logs
            = tickLoop h ev maxT now rest r n (some msg) logs := by
          simp only [tickLoop, hev]
          rw [if_neg hcap]
        rw [hred]
        obtain ⟨a, b, ⟨extra, hex, hmem⟩, hframe, hids⟩ := ih r n (some msg) logs hn
        refine ⟨a, b, ⟨extra, hex, ?_⟩, hframe, hids⟩
        intro l hl
        rw [List.map_cons]
        exact List.mem_cons_of_mem _ (hmem l hl)
      | noFire =>
        have hred : tickLoop h ev maxT now (m :: rest) r n le logs
            = tickLoop h ev maxT now rest r n le logs := by
          simp only [tickLoop, hev]
          rw [if_neg hcap]
        rw [hred]
        obtain ⟨a, b, ⟨extra, hex, hmem⟩, hframe, hids⟩ := ih r n le logs hn
        refine ⟨a, b, ⟨extra, hex, ?_⟩, hframe, hids⟩
        intro l hl
        rw [List.map_cons]
        exact List.mem_cons_of_mem _ (hmem l hl)
      | fires data =>
        have hred : tickLoop h ev maxT now (m :: rest) r n le logs
            = tickLoop h ev maxT now rest (fire h r m data now).1 (n + 1) le
                (logs ++ [(fire h r m data now).2]) := by
          simp only [tickLoop, hev]
          rw [if_neg hcap]
        rw [hred]
        obtain ⟨a, b, ⟨extra, hex, hmem⟩, hframe, hids⟩ :=
          ih (fire h r m data now).1 (n + 1) le (logs ++ [(fire h r m data now).2]) (by omega)
        refine ⟨a, ?_, ⟨(fire h r m data now).2 :: extra, ?_, ?_⟩, ?_, ?_⟩
        · simp only [List.length_append, List.length_cons, List.length_nil] at b
          omega
        · rw [hex]
          simp
        · intro l hl
          rcases List.mem_cons.mp hl with hl1 | hl2
          · rw [List.map_cons, hl1, fire_trigger_motivationID]
            exact List.mem_cons_self _ _
          · rw [List.map_cons]
            exact List.mem_cons_of_mem _ (hmem l hl2)
        · intro id hid
          have hneq : ((fire h r m data now).2).trigger.motivationID ≠ id := by
            apply hid
            rw [hex]
            simp
          rw [hframe id hid, fire_fst]
          exact findMotivation_recordTrigger_other r _ now id hneq
        · rw [hids, fire_fst, motivations_ids_recordTrigger]

lemma Tick_ids (h : ActionHandler) (ev : Motivation → EvalResult) (r : Registry) (now : Int) :
    (Tick h ev r now).registry.motivations.map (fun m => m.id)
      = r.motivations.map (fun m => m.id) := by
  unfold Tick
  dsimp only
  split
  · exact motivations_ids_checkCooldowns r now
  · obtain ⟨_, _, _, _, hids⟩ := tickLoop_spec h ev
      (checkCooldowns r now).config.maxTriggersPerTick now (getActive (checkCooldowns r now))
      (checkCooldowns r now) 0 none [] (Nat.zero_le _)
    rw [hids]
    exact motivations_ids_checkCooldowns r now

/-! ### C2: MaxTriggersPerTick caps a tick -/

/-- C2: in any single Engine.Tick, over any registry contents and any
evaluator behaviour, the number of fires is at most `MaxTriggersPerTick`
(with one fire log per counted fire), and any motivation whose id was not
fired — in particular any active motivation skipped because the cap was
reached — still has its registry entry, hence its Active status, unchanged
at the end of the tick. -/
theorem tick_caps (h : ActionHandler) (ev : Motivation → EvalResult) (r : Registry) (now : Int) :
    (Tick h ev r now).fired ≤ r.config.maxTriggersPerTick
    ∧ (Tick h ev r now).logs.length = (Tick h ev r now).fired
    ∧ (∀ id m, findMotivation (checkCooldowns r now) id = some m →
        id ∉ tickFiredIDs (Tick h ev r now) →
        findMotivation (Tick h ev r now).registry id = some m) := by
  unfold Tick
  dsimp only
  split
  · refine ⟨Nat.zero_le _, rfl, ?_⟩
    intro id m hf _
    exact hf
  · obtain ⟨a, b, _, hframe, _⟩ := tickLoop_spec h ev
      (checkCooldowns r now).config.maxTriggersPerTick now (getActive (checkCooldowns r now))
      (checkCooldowns r now) 0 none [] (Nat.zero_le _)
    refine ⟨a, by simpa using b, ?_⟩
    intro id m hf hnot
    have hall : ∀ l ∈ (tickLoop h ev (checkCooldowns r now).config.maxTriggersPerTick now
        (getActive (checkCooldowns r now)) (checkCooldowns r now) 0 none []).logs,
        l.trigger.motivationID ≠ id := by
      intro l hl heq
      exact hnot (List.mem_map.mpr ⟨l, hl, heq⟩)
    rw [hframe id hall]
    exact hf


/-- A concrete action handler whose calls all succeed. -/
def hW : ActionHandler :=
  { createStimulusBead := fun _ _ => Except.ok "bead-1",
    wakeAgent := fun _ _ => Except.ok (),
    wakeAgentsByRole := fun _ _ => Except.ok (),
    publishMotivationFired := fun _ => Except.ok () }

/-- A concrete action handler whose bead creation fails. -/
def hBad : ActionHandler :=
  { hW with createStimulusBead := fun _ _ => Except.error "boom" }

/-- An evaluator that fires every motivation with an empty data bag. -/
def evW : Motivation → EvalResult := fun _ => EvalResult.fires []

/-- A registry with three active motivations under a cap of 2 triggers per
tick. -/
def regCap : Registry :=
  { newRegistry { cfgW with maxTriggersPerTick := 2 } with
    motivations := [{ motW with id := "a" }, { motW with id := "b" }, { motW with id := "c" }] }

/-- Witness for C2: with cap 2 and three firing motivations, the tick fires
at most two, and the skipped motivation `c` keeps its Active entry. -/
theorem tick_caps_witness :
    (Tick hW evW regCap 100).fired ≤ regCap.config.maxTriggersPerTick
    ∧ findMotivation (Tick hW evW regCap 100).registry "c" = some { motW with id := "c" } := by
  refine ⟨(tick_caps hW evW regCap 100).1, ?_⟩
  exact (tick_caps hW evW regCap 100).2.2 "c" { motW with id := "c" } (by decide) (by decide)

/-! ### C1: no refire inside the cooldown window -/

/-- A whole tick neither fires a motivation that sits in cooldown with an
unexpired window nor changes its registry entry. -/
lemma tick_preserves_cooldown
    (h : ActionHandler) (ev : Motivation → EvalResult) (r : Registry) (now : Int)
    (id : String) (m : Motivation) (t0 : Int)
    (hu : uniqueIds r)
    (hfind : findMotivation r id = some m)
    (hst : m.status = MotivationStatusCooldown)
    (hlast : m.lastTriggeredAt = some t0)
    (hw : now - t0 < m.cooldownPeriod) :
    id ∉ tickFiredIDs (Tick h ev r now)
    ∧ findMotivation (Tick h ev r now).registry id = some m := by
  have hcc : findMotivation (checkCooldowns r now) id = some m := by
    rw [findMotivation_checkCooldowns, hfind]
    simp only [Option.map_some']
    rw [checkCooldownEntry_waiting now m t0 hst hlast hw]
  have hu1 : uniqueIds (checkCooldowns r now) := by
    unfold uniqueIds
    rw [motivations_ids_checkCooldowns]
    exact hu
  have hkey : ∀ mx ∈ getActive (checkCooldowns r now), mx.id ≠ id := by
    intro mx hmx heq
    have hmem := (mem_getActive _ _).mp hmx
    have hmem2 := findMotivation_mem _ _ _ hcc
    have hx : mx = m :=
      List.inj_on_of_nodup_map hu1 hmem.1 hmem2.1 (by rw [heq, hmem2.2])
    have hact := hmem.2
    rw [hx, hst] at hact
    exact absurd hact (by decide)
  have hnotin : id ∉ (getActive (checkCooldowns r now)).map (fun mm => mm.id) := by
    intro hcon
    obtain ⟨mx, hmx, hmx2⟩ := List.mem_map.mp hcon
    exact hkey mx hmx hmx2
  unfold Tick
  dsimp only
  split
  · constructor
    · simp [tickFiredIDs]
    · exact hcc
  · obtain ⟨_, _, ⟨extra, hex, hmem⟩, hframe, _⟩ := tickLoop_spec h ev
      (checkCooldowns r now).config.maxTriggersPerTick now (getActive (checkCooldowns r now))
      (checkCooldowns r now) 0 none [] (Nat.zero_le _)
    constructor
    · intro hcon
      obtain ⟨l, hl, hl2⟩ := List.mem_map.mp hcon
      rw [hex] at hl
      simp only [List.nil_append] at hl
      exact hnotin (hl2 ▸ hmem l hl)
    · have hall : ∀ l ∈ (tickLoop h ev (checkCooldowns r now).config.maxTriggersPerTick now
          (getActive (checkCooldowns r now)) (checkCooldowns r now) 0 none []).logs,
          l.trigger.motivationID ≠ id := by
        intro l hl heq
        rw [hex] at hl
        simp only [List.nil_append] at hl
        exact hnotin (heq ▸ hmem l hl)
      rw [hframe id hall]
      exact hcc

/-- C1: after a successful trigger is recorded, the motivation is in
Cooldown (out of the active set), and any two subsequent tick invocations at
times t1 < t2 that both fall inside the cooldown window after the trigger do
not fire it — in particular it does not fire at t2, because CheckCooldowns
does not return it to Active before `CooldownPeriod` has elapsed since
`LastTriggeredAt`. -/
theorem cooldown_window_no_refire
    (h1 h2 : ActionHandler) (ev1 ev2 : Motivation → EvalResult)
    (r : Registry) (tr : MotivationTrigger) (m : Motivation) (nowR t1 t2 : Int)
    (hu : uniqueIds r)
    (hfound : findMotivation r tr.motivationID = some m)
    (hres : tr.result = TriggerResultSuccess)
    (hord : t1 < t2)
    (hw1 : t1 - tr.triggeredAt < m.cooldownPeriod)
    (hw2 : t2 - tr.triggeredAt < m.cooldownPeriod) :
    (findMotivation (recordTrigger r tr nowR) tr.motivationID).map (fun mm => mm.status)
        = some MotivationStatusCooldown
    ∧ tr.motivationID ∉ tickFiredIDs (Tick h1 ev1 (recordTrigger r tr nowR) t1)
    ∧ tr.motivationID
        ∉ tickFiredIDs (Tick h2 ev2 (Tick h1 ev1 (recordTrigger r tr nowR) t1).registry t2) := by
  have hid := (findMotivation_mem _ _ _ hfound).2
  have hfind1 : findMotivation (recordTrigger r tr nowR) tr.motivationID
      = some { m with lastTriggeredAt := some tr.triggeredAt,
                      triggerCount := m.triggerCount + 1,
                      updatedAt := nowR, status := MotivationStatusCooldown } := by
    rw [findMotivation_recordTrigger, hfound]
    simp only [Option.map_some']
    rw [recordTriggerEntry_success tr nowR m hid hres]
  have hu1 : uniqueIds (recordTrigger r tr nowR) := by
    unfold uniqueIds
    rw [motivations_ids_recordTrigger]
    exact hu
  have hp1 := tick_preserves_cooldown h1 ev1 (recordTrigger r tr nowR) t1 tr.motivationID
    { m with lastTriggeredAt := some tr.triggeredAt, triggerCount := m.triggerCount + 1,
             updatedAt := nowR, status := MotivationStatusCooldown }
    tr.triggeredAt hu1 hfind1 rfl rfl hw1
  have hu2 : uniqueIds (Tick h1 ev1 (recordTrigger r tr nowR) t1).registry := by
    unfold uniqueIds
    rw [Tick_ids]
    exact hu1
  have hp2 := tick_preserves_cooldown h2 ev2
    (Tick h1 ev1 (recordTrigger r tr nowR) t1).registry t2 tr.motivationID
    { m with lastTriggeredAt := some tr.triggeredAt, triggerCount := m.triggerCount + 1,
             updatedAt := nowR, status := MotivationStatusCooldown }
    tr.triggeredAt hu2 hp1.2 rfl rfl hw2
  refine ⟨?_, hp1.1, hp2.1⟩
  rw [hfind1]
  rfl

/-- Witness for C1: the concrete one-motivation registry, a successful
trigger at time 10 under a cooldown of 50, and ticks at times 20 and 40 with
an evaluator that would fire everything. -/
theorem cooldown_window_no_refire_witness :
    (findMotivation (recordTrigger regW trigW 11) trigW.motivationID).map (fun mm => mm.status)
        = some MotivationStatusCooldown
    ∧ trigW.motivationID ∉ tickFiredIDs (Tick hW evW (recordTrigger regW trigW 11) 20)
    ∧ trigW.motivationID
        ∉ tickFiredIDs (Tick hW evW (Tick hW evW (recordTrigger regW trigW 11) 20).registry 40) :=
  cooldown_window_no_refire hW hW evW evW regW trigW motW 11 20 40 (by decide) (by decide) rfl
    (by decide) (by decide) (by decide)


/-! ### C5: bead-creation failure is isolated inside Engine.fire -/

/-- C5: when `CreateBeadOnTrigger` is set and `CreateStimulusBead` fails,
the resulting trigger has result Error with the error string recorded, no
wake call (neither `WakeAgent` nor `WakeAgentsByRole`) is made, the fired
event is still published, and the trigger is still recorded as the newest
entry of the registry history; when `CreateStimulusBead` succeeds, the
returned bead id is recorded on the trigger, whose result stays Success. -/
theorem fire_beadFailure_isolation
    (h : ActionHandler) (r : Registry) (m : Motivation) (data : TriggerData) (now : Int)
    (hcb : m.createBeadOnTrigger = true) :
    (∀ e, h.createStimulusBead m data = Except.error e →
        ((fire h r m data now).2).trigger.result = TriggerResultError
        ∧ ((fire h r m data now).2).trigger.error = e
        ∧ (∀ a, HandlerCall.wakeOne a ∉ ((fire h r m data now).2).calls)
        ∧ (∀ ro, HandlerCall.wakeRole ro ∉ ((fire h r m data now).2).calls)
        ∧ HandlerCall.publish (((fire h r m data now).2).trigger.id)
            ∈ ((fire h r m data now).2).calls
        ∧ ((fire h r m data now).1).triggers.getLast? = some ((fire h r m data now).2).trigger)
    ∧ (∀ beadID, h.createStimulusBead m data = Except.ok beadID →
        ((fire h r m data now).2).trigger.beadCreated = beadID
        ∧ ((fire h r m data now).2).trigger.result = TriggerResultSuccess) := by
  constructor
  · intro e herr
    unfold fire
    dsimp only
    unfold fireBeadStep
    rw [if_pos hcb, herr]
    dsimp only
    rw [fireWakeStep_skip h m _ (by dsimp only; decide)]
    dsimp only
    refine ⟨rfl, rfl, ?_, ?_, ?_, ?_⟩
    · intro a
      simp
    · intro ro
      simp
    · simp
    · exact recordTrigger_getLast _ _ _
  · intro beadID hok
    unfold fire
    dsimp only
    unfold fireBeadStep
    rw [if_pos hcb, hok]
    dsimp only
    constructor
    · rw [(fireWakeStep_preserves h m _).2.2.1]
    · rw [(fireWakeStep_preserves h m _).2.1]

/-- A motivation that creates a bead and would wake an agent on firing. -/
def motBead : Motivation :=
  { motW with createBeadOnTrigger := true, wakeAgent := true, agentID := "a1" }

/-- Witness for C5 at the failing handler `hBad` (bead creation returns the
error "boom") and at the succeeding handler `hW`. -/
theorem fire_beadFailure_isolation_witness :
    (((fire hBad regW motBead [] 20).2).trigger.result = TriggerResultError
      ∧ ((fire hBad regW motBead [] 20).2).trigger.error = "boom"
      ∧ (∀ a, HandlerCall.wakeOne a ∉ ((fire hBad regW motBead [] 20).2).calls)
      ∧ (∀ ro, HandlerCall.wakeRole ro ∉ ((fire hBad regW motBead [] 20).2).calls)
      ∧ HandlerCall.publish (((fire hBad regW motBead [] 20).2).trigger.id)
          ∈ ((fire hBad regW motBead [] 20).2).calls
      ∧ ((fire hBad regW motBead [] 20).1).triggers.getLast?
          = some ((fire hBad regW motBead [] 20).2).trigger)
    ∧ (((fire hW regW motBead [] 20).2).trigger.beadCreated = "bead-1"
      ∧ ((fire hW regW motBead [] 20).2).trigger.result = TriggerResultSuccess) :=
  ⟨(fire_beadFailure_isolation hBad regW motBead [] 20 rfl).1 "boom" rfl,
   (fire_beadFailure_isolation hW regW motBead [] 20 rfl).2 "bead-1" rfl⟩

/-! ### C7: ManualTrigger bypasses the cooldown check -/

/-- C7: `ManualTrigger` on a registered id — regardless of the motivation's
status, so in particular while it is in Cooldown — fires it with
trigger-data `{manual: true}`, returns a trigger with result Success
stamped at the call time, and the fire appends a record to the registry's
trigger history (growing it by one while under the bound); on an unknown id
it returns the not-found error to the caller and the registry, history
included, is returned unchanged. -/
theorem manualTrigger_spec (h : ActionHandler) (r : Registry) (id : String) (now : Int) :
    (findMotivation r id = none →
        manualTrigger h r id now = (r, Except.error ("motivation not found: " ++ id)))
    ∧ (∀ m, findMotivation r id = some m →
        ∃ tr log, manualTrigger h r id now
              = ((fire h r m manualTriggerData now).1, Except.ok (tr, log))
          ∧ tr.result = TriggerResultSuccess
          ∧ tr.triggerData = manualTriggerData
          ∧ tr.motivationID = m.id
          ∧ tr.triggeredAt = now
          ∧ ((fire h r m manualTriggerData now).1).triggers.getLast? = some log.trigger
          ∧ (r.triggers.length < 1000 →
              ((fire h r m manualTriggerData now).1).triggers.length
                = r.triggers.length + 1)) := by
  constructor
  · intro hnone
    unfold manualTrigger
    rw [hnone]
  · intro m hm
    unfold manualTrigger
    rw [hm]
    dsimp only
    refine ⟨_, _, rfl, rfl, rfl, rfl, rfl, ?_, ?_⟩
    · rw [fire_fst]
      exact recordTrigger_getLast _ _ _
    · intro hlt
      rw [fire_fst, recordTrigger_triggers_length]
      omega

/-- The witness motivation for C7, sitting in Cooldown after a trigger at
time 10. -/
def motCD : Motivation :=
  { motW with status := MotivationStatusCooldown, lastTriggeredAt := some 10, triggerCount := 1 }

/-- A registry holding only `motCD`. -/
def regCD : Registry := { newRegistry cfgW with motivations := [motCD] }

/-- Witness for C7: a manual trigger of the cooldown-bound motivation
succeeds and records a trigger, and a manual trigger of an unknown id
returns the not-found error with the registry unchanged. -/
theorem manualTrigger_spec_witness :
    (∃ tr log, manualTrigger hW regCD "m1" 20
          = ((fire hW regCD motCD manualTriggerData 20).1, Except.ok (tr, log))
      ∧ tr.result = TriggerResultSuccess
      ∧ tr.triggerData = manualTriggerData
      ∧ tr.motivationID = motCD.id
      ∧ tr.triggeredAt = 20
      ∧ ((fire hW regCD motCD manualTriggerData 20).1).triggers.getLast? = some log.trigger
      ∧ (regCD.triggers.length < 1000 →
          ((fire hW regCD motCD manualTriggerData 20).1).triggers.length
            = regCD.triggers.length + 1))
    ∧ manualTrigger hW regCD "zzz" 20
        = (regCD, Except.error ("motivation not found: " ++ "zzz")) :=
  ⟨(manualTrigger_spec hW regCD "m1" 20).2 motCD (by decide),
   (manualTrigger_spec hW regCD "zzz" 20).1 (by decide)⟩

end Loom
